import Mathlib

/-!
Verification of the Simply Nerdy transcript-to-article automation pipeline.

This file gives a shallow embedding, in Lean 4, of the JavaScript functions of
`automation/src/utils.js`, `automation/src/articles-manager.js`,
`automation/src/claude-api.js` and `automation/src/image-handler.js`, and proves
properties of that embedding.

Modelling conventions:
- JavaScript strings are Lean `String`s (sequences of unicode scalar values);
  `String.prototype.length` is modelled by `String.length`.  The two differ only
  on astral-plane characters (UTF-16 surrogate pairs), which no property here
  exercises.
- JavaScript objects with a fixed field set become Lean structures; a field that
  may be absent (`'f' in obj` is false) becomes an `Option` field with `none`
  for absence.  JavaScript truthiness of a string field is `some s` with
  `s ≠ ""`; an array field is truthy whenever present (JS arrays are truthy).
- Exceptions become `Except`/explicit error results; `try/catch` becomes a
  `match` on those results.
- File-system state (the articles store and its backup directory) becomes an
  explicit `FileSystem` value threaded through the operations, with fault
  injection parameters standing for the points where the real I/O can fail.
- Regular-expression matching is modelled by direct scanning functions that
  implement the backtracking semantics of the concrete patterns appearing in
  the source (leftmost match, greedy/lazy quantifiers as written).
-/

namespace SimplyNerdy

/-! ### Character and string primitives shared by the embedding -/

/-- Left brace character (written via its code to keep string literals plain). -/
def obr : Char := '\x7b'

/-- Right brace character. -/
def cbr : Char := '\x7d'

/-- Double-quote character. -/
def dq : Char := '\x22'

/-- Single-quote character. -/
def sq : Char := '\x27'

/-- Backtick character. -/
def btk : Char := '\x60'

/-- The whitespace class used by JavaScript `String.prototype.trim`, by
`parseInt` argument trimming, and by the regex class `\s` (ECMA WhiteSpace and
LineTerminator code points). -/
def isJsWhitespace (c : Char) : Bool :=
  c == ' ' || c == '\t' || c == '\n' || c == '\r' || c == '\x0b' || c == '\x0c' ||
  c == '\u00A0' || c == '\u1680' || ('\u2000' ≤ c && c ≤ '\u200A') ||
  c == '\u2028' || c == '\u2029' || c == '\u202F' || c == '\u205F' ||
  c == '\u3000' || c == '\uFEFF'

/-- JavaScript regex `.` (without the `s` flag) refuses line terminators. -/
def isLineTerminator (c : Char) : Bool :=
  c == '\n' || c == '\r' || c == '\u2028' || c == '\u2029'

/-- Drop the elements satisfying `p` from the end of a list. -/
def dropTrailing (p : Char → Bool) (l : List Char) : List Char :=
  (l.reverse.dropWhile p).reverse

/-- `String.prototype.trim`: remove whitespace from both ends. -/
def trimChars (l : List Char) : List Char :=
  dropTrailing isJsWhitespace (l.dropWhile isJsWhitespace)

/-- `String.prototype.trim` on strings. -/
def jsTrim (s : String) : String :=
  String.mk (trimChars s.toList)

/-- `String.prototype.padStart (n, pad)`. -/
def padStart (n : Nat) (pad : Char) (s : String) : String :=
  if s.length < n then String.mk (List.replicate (n - s.length) pad) ++ s else s

/-- Value of a list of decimal digit characters. -/
def digitsToNat (l : List Char) : Nat :=
  l.foldl (fun acc c => acc * 10 + (c.toNat - 48)) 0

/-- JavaScript `parseInt (s, 10)`: skip leading whitespace, read an optional
sign, then the maximal run of decimal digits; `none` models `NaN` (no digits).
Values are modelled as exact integers (the IEEE-754 rounding JS applies beyond
15 significant digits is not observable in any property proved here). -/
def jsParseInt (s : String) : Option Int :=
  let l := s.toList.dropWhile isJsWhitespace
  let signAndRest : Int × List Char :=
    match l with
    | '-' :: r => (-1, r)
    | '+' :: r => (1, r)
    | _ => (1, l)
  let ds := signAndRest.2.takeWhile Char.isDigit
  if ds.isEmpty then none else some (signAndRest.1 * (digitsToNat ds : Int))

/-- Decimal digit list of a natural number, most significant first.  The first
argument is recursion fuel; `n + 1` fuel always suffices. -/
def natDigitsAux : Nat → Nat → List Char
  | 0, _ => []
  | fuel + 1, n =>
    if n < 10 then [Nat.digitChar n]
    else natDigitsAux fuel (n / 10) ++ [Nat.digitChar (n % 10)]

/-- JavaScript `String (n)` for a natural number. -/
def jsNatToString (n : Nat) : String :=
  String.mk (natDigitsAux (n + 1) n)

/-- JavaScript `String (n)` for an integer. -/
def jsIntToString (n : Int) : String :=
  if n < 0 then "-" ++ jsNatToString (-n).toNat else jsNatToString n.toNat

/-! ### `utils.js`: `generateId` -/

/-- `generateId` from `utils.js`: `numericId = parseInt (currentMaxId, 10) || 0`
(the falsy `NaN` — and `0` itself — become `0`), then
`String (numericId + 1).padStart (3, '0')`. -/
def generateId (currentMaxId : String) : String :=
  let numericId : Int := (jsParseInt currentMaxId).getD 0
  let nextId : Int := numericId + 1
  padStart 3 '0' (jsIntToString nextId)

/-! ### `utils.js`: `generateSlug` -/

/-- The regex class `\w`: ASCII letters, digits and underscore. -/
def isWordChar (c : Char) : Bool :=
  c.isAlphanum || c == '_'

/-- The class `[\s_-]` collapsed to hyphens by `generateSlug`. -/
def isCollapseChar (c : Char) : Bool :=
  isJsWhitespace c || c == '_' || c == '-'

/-- One global replace of `/[\s_-]+/g` by `'-'`: each maximal run of collapse
characters becomes a single hyphen.  The boolean records whether the previous
character belonged to a run. -/
def collapseRuns : Bool → List Char → List Char
  | _, [] => []
  | inRun, c :: rest =>
    if isCollapseChar c then
      if inRun then collapseRuns true rest else '-' :: collapseRuns true rest
    else c :: collapseRuns false rest

/-- One global replace of `/^-+|-+$/g` by `''`: strip leading and trailing
hyphen runs. -/
def stripEdgeHyphens (l : List Char) : List Char :=
  dropTrailing (fun c => c == '-') (l.dropWhile (fun c => c == '-'))

/-- `generateSlug` from `utils.js`: lowercase, trim, delete `[^\w\s-]`,
collapse `[\s_-]+` runs to single hyphens, strip edge hyphens. -/
def generateSlug (title : String) : String :=
  let cs0 := title.toList.map Char.toLower
  let cs1 := trimChars cs0
  let cs2 := cs1.filter (fun c => isWordChar c || isJsWhitespace c || c == '-')
  let cs3 := collapseRuns false cs2
  String.mk (stripEdgeHyphens cs3)

/-! ### `utils.js`: `validateTranscript` -/

/-- Result record of `validateTranscript`. -/
structure TranscriptResult where
  valid : Bool
  error : Option String
deriving DecidableEq, Repr

/-- `validateTranscript` from `utils.js`.  The JS guard `!text || typeof text
!== 'string'` reduces, on the string domain modelled here, to `text = ""`. -/
def validateTranscript (text : String) : TranscriptResult :=
  if text == "" then
    ⟨false, some ("Transcript is empty or not a string")⟩
  else
    let trimmed := jsTrim text
    if trimmed.length < 100 then
      ⟨false, some ("Transcript too short (minimum 100 characters)")⟩
    else if trimmed.length > 100000 then
      ⟨false, some ("Transcript too long (maximum 100,000 characters)")⟩
    else
      ⟨true, none⟩

/-! ### `utils.js`: `sanitizeHtml`

The source applies, for each tag in `['script', 'iframe', 'object', 'embed',
'form']`, the global replaces
`new RegExp ('<tag[^>]*>.*?</tag>', 'gi')` and `new RegExp ('<tag[^>]*/>', 'gi')`
by the empty string, then strips inline event handlers with
`/on\w+\s*=\s*["'][^"']*["']/gi`.  The scanners below implement exactly those
patterns: case-insensitive literals, `[^>]*` as maximal munch up to the first
`>`, the lazy `.*?` as shortest expansion over non-line-terminator characters
(`.` does not match line terminators because the `s` flag is absent), and
global replacement as a single left-to-right pass. -/

/-- Consume a case-insensitively matching literal prefix (pattern given in
lowercase), returning the rest of the input. -/
def dropPrefixCI : List Char → List Char → Option (List Char)
  | [], l => some l
  | _ :: _, [] => none
  | p :: ps, c :: cs => if c.toLower == p then dropPrefixCI ps cs else none

/-- Lazy scan for the literal `</tag>` implementing `.*?</tag>`: at each
position first try the closing tag, otherwise consume one non-line-terminator
character. -/
def pairedBody (closeTag : List Char) : Nat → List Char → Option (List Char)
  | 0, _ => none
  | fuel + 1, l =>
    match dropPrefixCI closeTag l with
    | some rest => some rest
    | none =>
      match l with
      | [] => none
      | c :: rest => if isLineTerminator c then none else pairedBody closeTag fuel rest

/-- Try to match `<tag[^>]*>.*?</tag>` at the head of the input; on success
return the input after the match. -/
def tryPairedTag (tag : List Char) (l : List Char) : Option (List Char) :=
  match dropPrefixCI ('<' :: tag) l with
  | none => none
  | some l1 =>
    match l1.dropWhile (fun c => c != '>') with
    | '>' :: l2 => pairedBody ('<' :: '/' :: (tag ++ ['>'])) (l2.length + 1) l2
    | _ => none

/-- Try to match `<tag[^>]*/>` at the head of the input: the maximal run of
non-`>` characters after the tag name must end with `/`. -/
def trySelfClosingTag (tag : List Char) (l : List Char) : Option (List Char) :=
  match dropPrefixCI ('<' :: tag) l with
  | none => none
  | some l1 =>
    match l1.dropWhile (fun c => c != '>') with
    | '>' :: l2 =>
      match (l1.takeWhile (fun c => c != '>')).getLast? with
      | some ch => if ch == '/' then some l2 else none
      | none => none
    | _ => none

/-- Try to match `on\w+\s*=\s*["'][^"']*["']` at the head of the input. -/
def tryEventHandler (l : List Char) : Option (List Char) :=
  match dropPrefixCI ['o', 'n'] l with
  | none => none
  | some l1 =>
    let name := l1.takeWhile isWordChar
    if name.isEmpty then none
    else
      match (l1.dropWhile isWordChar).dropWhile isJsWhitespace with
      | '=' :: l4 =>
        match l4.dropWhile isJsWhitespace with
        | q :: l6 =>
          if q == dq || q == sq then
            match l6.dropWhile (fun c => c != dq && c != sq) with
            | q2 :: l7 => if q2 == dq || q2 == sq then some l7 else none
            | [] => none
          else none
        | [] => none
      | _ => none

/-- One global regex replace by the empty string: a single left-to-right pass,
deleting each leftmost non-overlapping match. -/
def replaceAllWith (tryMatch : List Char → Option (List Char)) : Nat → List Char → List Char
  | 0, l => l
  | fuel + 1, l =>
    match l with
    | [] => []
    | c :: rest =>
      match tryMatch l with
      | some rest2 => replaceAllWith tryMatch fuel rest2
      | none => c :: replaceAllWith tryMatch fuel rest

/-- The denylist of `sanitizeHtml`, in source order. -/
def dangerousTags : List (List Char) :=
  [['s', 'c', 'r', 'i', 'p', 't'], ['i', 'f', 'r', 'a', 'm', 'e'],
   ['o', 'b', 'j', 'e', 'c', 't'], ['e', 'm', 'b', 'e', 'd'], ['f', 'o', 'r', 'm']]

/-- `sanitizeHtml` from `utils.js`.  On the string domain the JS guard
`!html || typeof html !== 'string'` reduces to `html = ""`. -/
def sanitizeHtml (html : String) : String :=
  if html == "" then ""
  else
    let step := fun (l : List Char) (tag : List Char) =>
      let l1 := replaceAllWith (tryPairedTag tag) (l.length + 1) l
      replaceAllWith (trySelfClosingTag tag) (l1.length + 1) l1
    let afterTags := dangerousTags.foldl step html.toList
    String.mk (replaceAllWith tryEventHandler (afterTags.length + 1) afterTags)

/-! ### `articles-manager.js`: article validation -/

/-- An article object as handled by `articles-manager.js`.  Every field the
validator inspects is optional: `none` models an absent key (`'f' in article`
false).  `tags` is an array of strings when present (the only shape the
pipeline produces; `Array.isArray` is then always true). -/
structure Article where
  id : Option String
  title : Option String
  slug : Option String
  date : Option String
  category : Option String
  excerpt : Option String
  content : Option String
  tags : Option (List String)
  author : Option String
  image : Option String
deriving DecidableEq, Repr

/-- JavaScript truthiness of an optional string field: present and non-empty. -/
def truthy (o : Option String) : Bool :=
  match o with
  | some s => s != ""
  | none => false

/-- The regex `^\d{3}$`. -/
def matchesIdPattern (s : String) : Bool :=
  s.length == 3 && s.toList.all Char.isDigit

/-- The regex `^[a-z0-9-]+$`. -/
def matchesSlugPattern (s : String) : Bool :=
  !s.isEmpty && s.toList.all (fun c => c.isLower || c.isDigit || c == '-')

/-- The regex `^\d{4}-\d{2}-\d{2}$`. -/
def matchesDatePattern (s : String) : Bool :=
  match s.toList with
  | [y1, y2, y3, y4, h1, m1, m2, h2, d1, d2] =>
    y1.isDigit && y2.isDigit && y3.isDigit && y4.isDigit && h1 == '-' &&
    m1.isDigit && m2.isDigit && h2 == '-' && d1.isDigit && d2.isDigit
  | _ => false

/-- `String.prototype.startsWith`, as a structurally-evaluable prefix test. -/
def jsStartsWith (s pre : String) : Bool :=
  pre.toList.isPrefixOf s.toList

/-- Result record of `validateArticleStructure`. -/
structure ValidationResult where
  valid : Bool
  errors : List String
deriving DecidableEq, Repr

def idFormatMsg : String := "ID must be 3-digit zero-padded number (e.g., \"007\")"

def titleLengthMsg : String := "Title must be between 10 and 100 characters"

def slugFormatMsg : String := "Slug must contain only lowercase letters, numbers, and hyphens"

def dateFormatMsg : String := "Date must be in YYYY-MM-DD format"

def categoryMsg (categories : List String) : String :=
  "Category must be one of: " ++ String.intercalate (", ") categories

def excerptLengthMsg : String := "Excerpt must be at least 50 characters"

def contentLengthMsg : String := "Content must be at least 100 characters"

def tagsMsg : String := "Tags must be an array with at least 3 items"

def authorMsg : String := "Author must be \"Simply Nerdy\""

def imageMsg : String := "Image must be a valid URL starting with http"

def missingFieldMsg (field : String) : String := "Missing required field: " ++ field

/-- `validateArticleStructure` from `articles-manager.js`: accumulate, in
source order, one error per missing required field, then one error per failing
format check; every format check is gated on the field being truthy.  The
configured category list (`config.categories` from `settings.json`, a file not
part of the sources) is passed as a parameter. -/
def articleErrors (categories : List String) (article : Article) : List String :=
    (if article.id.isNone then [missingFieldMsg ("id")] else []) ++
    (if article.title.isNone then [missingFieldMsg ("title")] else []) ++
    (if article.slug.isNone then [missingFieldMsg ("slug")] else []) ++
    (if article.date.isNone then [missingFieldMsg ("date")] else []) ++
    (if article.category.isNone then [missingFieldMsg ("category")] else []) ++
    (if article.excerpt.isNone then [missingFieldMsg ("excerpt")] else []) ++
    (if article.content.isNone then [missingFieldMsg ("content")] else []) ++
    (if article.tags.isNone then [missingFieldMsg ("tags")] else []) ++
    (if article.author.isNone then [missingFieldMsg ("author")] else []) ++
    (if article.image.isNone then [missingFieldMsg ("image")] else []) ++
    (if truthy article.id && !matchesIdPattern (article.id.getD ("")) then
      [idFormatMsg] else []) ++
    (if truthy article.title &&
        ((article.title.getD ("")).length < 10 || (article.title.getD ("")).length > 100) then
      [titleLengthMsg] else []) ++
    (if truthy article.slug && !matchesSlugPattern (article.slug.getD ("")) then
      [slugFormatMsg] else []) ++
    (if truthy article.date && !matchesDatePattern (article.date.getD ("")) then
      [dateFormatMsg] else []) ++
    (if truthy article.category && !(categories.contains (article.category.getD (""))) then
      [categoryMsg categories] else []) ++
    (if truthy article.excerpt && (article.excerpt.getD ("")).length < 50 then
      [excerptLengthMsg] else []) ++
    (if truthy article.content && (article.content.getD ("")).length < 100 then
      [contentLengthMsg] else []) ++
    (if article.tags.isSome && (article.tags.getD []).length < 3 then
      [tagsMsg] else []) ++
    (if truthy article.author && !(article.author.getD ("") == "Simply Nerdy") then
      [authorMsg] else []) ++
    (if truthy article.image && !(jsStartsWith (article.image.getD ("")) ("http")) then
      [imageMsg] else [])

/-- `validateArticleStructure` returns the accumulated errors together with the
flag `errors.length === 0`. -/
def validateArticleStructure (categories : List String) (article : Article) : ValidationResult :=
  ⟨(articleErrors categories article).isEmpty, articleErrors categories article⟩

/-! ### `articles-manager.js`: the store, backups, and `appendArticle`

`articles.json` holds `{ "_instructions": ..., "posts": [...] }`.  `StoreData`
models the parsed document: `instructionsPresent` is the truthiness of
`_instructions`, and `posts` the array.  A `FileSystem` value carries the live
store file (`none` models a missing store file) and the backup directory as
`(timestamp, content)` pairs.  `writeArticles` serializes a full document and
re-verifies it (`verifyIntegrity`), so equality of `StoreData` values models
equality of the file contents they serialize to. -/

structure StoreData where
  instructionsPresent : Bool
  posts : List Article
deriving DecidableEq, Repr

structure FileSystem where
  store : Option StoreData
  backups : List (String × Option StoreData)
deriving DecidableEq, Repr

/-- Outcome injected for the `fs.writeFile` step of `writeArticles`:
either the write lands, or it throws leaving the file in some state. -/
inductive WriteOutcome where
  | ok
  | fail (leftover : Option StoreData)
deriving DecidableEq, Repr

/-- Fault injection for one `appendArticle` run: the write outcome, and whether
the `copyFile` of a backup restore succeeds. -/
structure Faults where
  writeOutcome : WriteOutcome
  restoreOk : Bool
deriving DecidableEq, Repr

/-- Errors surfaced by `appendArticle`.  `writeFailed` covers both a throwing
`fs.writeFile` and a failing `verifyIntegrity`, which `writeArticles` wraps
into the same `Failed to write articles.json` error. -/
inductive AppendError where
  | validationFailed (message : String)
  | backupFailed
  | readFailed
  | writeFailed
deriving DecidableEq, Repr

/-- The most recent backup: the entry with the greatest timestamp (the source
sorts by `localeCompare` descending and takes the first element; on the
digit-and-hyphen timestamps of `getTimestamp` this is lexicographic order). -/
def latestBackup : List (String × Option StoreData) → Option (String × Option StoreData)
  | [] => none
  | b :: bs => some (bs.foldl (fun acc x => if acc.1 < x.1 then x else acc) b)

/-- `restoreFromBackup` wrapped in the `catch` of `appendArticle`: copy the
most recent backup over the live store; any failure (no backups, or a failing
copy) is logged and swallowed, leaving the store as it was. -/
def tryRestore (restoreOk : Bool) (f : FileSystem) : FileSystem :=
  match latestBackup f.backups with
  | none => f
  | some b => if restoreOk then { f with store := b.2 } else f

/-- Insert into a list sorted by timestamp descending. -/
def insertByTimestampDesc (x : String × Option StoreData) :
    List (String × Option StoreData) → List (String × Option StoreData)
  | [] => [x]
  | y :: ys => if y.1 < x.1 then x :: y :: ys else y :: insertByTimestampDesc x ys

/-- Backups sorted newest first, as `cleanOldBackups` sorts them. -/
def sortBackupsDesc (l : List (String × Option StoreData)) : List (String × Option StoreData) :=
  l.foldr insertByTimestampDesc []

/-- `cleanOldBackups`: keep only the `maxBackups` most recent backups; never
fails (its own failures are logged and swallowed). -/
def cleanOldBackups (maxBackups : Nat) (f : FileSystem) : FileSystem :=
  if maxBackups < (sortBackupsDesc f.backups).length then
    { f with backups := (sortBackupsDesc f.backups).take maxBackups }
  else f

/-- `appendArticle` from `articles-manager.js`, as a state transformer over the
file system.  Parameters: `categories` is `config.categories`, `maxBackups` is
`config.maxBackups`, `ts` is the value of `getTimestamp ()` for this run (the
same run uses it both for the backup filename and for a deduplicated slug
suffix; modelling them as one value only widens the duplicate-slug theorem's
hypotheses), `fl` injects the I/O faults.

Source sequence: validate (throw on invalid) → `createBackup` → `readArticles`
→ slug dedup → push → `writeArticles` (write then `verifyIntegrity`) →
`cleanOldBackups`.  The surrounding `catch` attempts `restoreFromBackup` on
ANY thrown error — including a validation error — swallowing restore failures,
then rethrows the original error. -/
def appendArticle (categories : List String) (maxBackups : Nat) (ts : String)
    (fl : Faults) (f : FileSystem) (article : Article) :
    FileSystem × Except AppendError Unit :=
  let v := validateArticleStructure categories article
  if v.valid then
    match f.store with
    | none =>
      -- createBackup: copyFile of a missing store file throws
      (tryRestore fl.restoreOk f, .error .backupFailed)
    | some data =>
      -- createBackup: copy the live store into the backup folder
      let f1 : FileSystem := { f with backups := (ts, some data) :: f.backups }
      -- readArticles, then duplicate-slug check
      let article1 :=
        if data.posts.any (fun p => p.slug == article.slug) then
          { article with slug := article.slug.map (fun s => s ++ "-" ++ ts) }
        else article
      let newData : StoreData := { data with posts := data.posts ++ [article1] }
      match fl.writeOutcome with
      | .fail leftover =>
        -- fs.writeFile threw: writeArticles rethrows; catch restores and rethrows
        (tryRestore fl.restoreOk { f1 with store := leftover }, .error .writeFailed)
      | .ok =>
        let f2 : FileSystem := { f1 with store := some newData }
        if newData.instructionsPresent then
          (cleanOldBackups maxBackups f2, .ok ())
        else
          -- verifyIntegrity failed: writeArticles wraps it as a write failure
          (tryRestore fl.restoreOk f2, .error .writeFailed)
  else
    -- validation threw; the catch still attempts restoreFromBackup
    (tryRestore fl.restoreOk f,
     .error (.validationFailed ("Article validation failed:\n" ++
       String.intercalate ("\n") v.errors)))

/-! ### `claude-api.js`: `parseApiResponse`

`JSON.parse` is modelled by a recursive-descent parser over the ECMA-404
grammar (the grammar `JSON.parse` accepts): optional surrounding whitespace,
values `object | array | string | number | true | false | null`, strings with
the standard escapes, objects with insertion-ordered fields where a duplicated
key overwrites the earlier value in place.  Numbers keep their source literal
(their IEEE-754 value is never inspected by the code under verification).  A
`\uXXXX` escape denoting a lone UTF-16 surrogate — representable in a JS
string but not as a unicode scalar — is modelled as U+FFFD. -/

inductive Json where
  | null
  | bool (b : Bool)
  | num (literal : String)
  | str (s : String)
  | arr (elements : List Json)
  | obj (fields : List (String × Json))
deriving Repr, BEq

/-- JSON whitespace (`JSON.parse` accepts exactly these four). -/
def isJsonWs (c : Char) : Bool :=
  c == ' ' || c == '\t' || c == '\n' || c == '\r'

def skipJsonWs (l : List Char) : List Char :=
  l.dropWhile isJsonWs

/-- Hexadecimal digit value. -/
def hexVal (c : Char) : Option Nat :=
  if c.isDigit then some (c.toNat - 48)
  else if 'a' ≤ c && c ≤ 'f' then some (c.toNat - 87)
  else if 'A' ≤ c && c ≤ 'F' then some (c.toNat - 55)
  else none

def hexQuad (h1 h2 h3 h4 : Char) : Option Nat := do
  let a ← hexVal h1
  let b ← hexVal h2
  let c ← hexVal h3
  let d ← hexVal h4
  pure (a * 4096 + b * 256 + c * 16 + d)

/-- Body of a JSON string after the opening quote. -/
def parseStringBody : Nat → List Char → List Char → Option (String × List Char)
  | 0, _, _ => none
  | fuel + 1, acc, l =>
    match l with
    | [] => none
    | c :: rest =>
      if c == dq then some (String.mk acc.reverse, rest)
      else if c == '\\' then
        match rest with
        | [] => none
        | e :: rest2 =>
          if e == dq then parseStringBody fuel (dq :: acc) rest2
          else if e == '\\' then parseStringBody fuel ('\\' :: acc) rest2
          else if e == '/' then parseStringBody fuel ('/' :: acc) rest2
          else if e == 'b' then parseStringBody fuel ('\x08' :: acc) rest2
          else if e == 'f' then parseStringBody fuel ('\x0c' :: acc) rest2
          else if e == 'n' then parseStringBody fuel ('\n' :: acc) rest2
          else if e == 'r' then parseStringBody fuel ('\r' :: acc) rest2
          else if e == 't' then parseStringBody fuel ('\t' :: acc) rest2
          else if e == 'u' then
            match rest2 with
            | h1 :: h2 :: h3 :: h4 :: rest3 =>
              match hexQuad h1 h2 h3 h4 with
              | none => none
              | some n =>
                if n < 0xd800 || 0xdfff < n then
                  parseStringBody fuel (Char.ofNat n :: acc) rest3
                else if n ≤ 0xdbff then
                  -- high surrogate: try to pair with a following \uDC00-\uDFFF
                  match rest3 with
                  | '\\' :: 'u' :: g1 :: g2 :: g3 :: g4 :: rest4 =>
                    match hexQuad g1 g2 g3 g4 with
                    | some m =>
                      if 0xdc00 ≤ m && m ≤ 0xdfff then
                        let scalar := 0x10000 + (n - 0xd800) * 0x400 + (m - 0xdc00)
                        parseStringBody fuel (Char.ofNat scalar :: acc) rest4
                      else parseStringBody fuel ('�' :: acc) rest3
                    | none => parseStringBody fuel ('�' :: acc) rest3
                  | _ => parseStringBody fuel ('�' :: acc) rest3
                else
                  -- lone low surrogate
                  parseStringBody fuel ('�' :: acc) rest3
            | _ => none
          else none
      else if c.toNat < 0x20 then none
      else parseStringBody fuel (c :: acc) rest

/-- A JSON number literal: `-? (0 | [1-9][0-9]*) (\.[0-9]+)? ([eE][+-]?[0-9]+)?`.
Returns the literal and the rest. -/
def parseNumberLit (l : List Char) : Option (String × List Char) :=
  let signAndRest : List Char × List Char :=
    match l with
    | '-' :: r => (['-'], r)
    | _ => ([], l)
  let intAndRest : Option (List Char × List Char) :=
    match signAndRest.2 with
    | '0' :: r => some (['0'], r)
    | c :: _ =>
      if c.isDigit then
        some (signAndRest.2.takeWhile Char.isDigit, signAndRest.2.dropWhile Char.isDigit)
      else none
    | [] => none
  match intAndRest with
  | none => none
  | some (ip, r1) =>
    let fracAndRest : List Char × List Char :=
      match r1 with
      | '.' :: r2 =>
        let ds := r2.takeWhile Char.isDigit
        if ds.isEmpty then ([], r1) else ('.' :: ds, r2.dropWhile Char.isDigit)
      | _ => ([], r1)
    let r2 := fracAndRest.2
    let expAndRest : Option (List Char × List Char) :=
      match r2 with
      | e :: r3 =>
        if e == 'e' || e == 'E' then
          let signedRest : List Char × List Char :=
            match r3 with
            | '+' :: r4 => (['+'], r4)
            | '-' :: r4 => (['-'], r4)
            | _ => ([], r3)
          let ds := signedRest.2.takeWhile Char.isDigit
          if ds.isEmpty then some ([], r2)
          else some (e :: (signedRest.1 ++ ds), signedRest.2.dropWhile Char.isDigit)
        else some ([], r2)
      | [] => some ([], r2)
    match expAndRest with
    | none => none
    | some (ep, r3) =>
      -- a bare 'e' with no digits is not part of the number; JSON then fails at
      -- the value level on the stray character, which the caller detects
      if ep.isEmpty && !(fracAndRest.1.isEmpty) then
        some (String.mk (signAndRest.1 ++ ip ++ fracAndRest.1), r3)
      else if ep.isEmpty then
        some (String.mk (signAndRest.1 ++ ip), r3)
      else
        some (String.mk (signAndRest.1 ++ ip ++ fracAndRest.1 ++ ep), r3)

/-- Add a parsed member to an object: a duplicated key overwrites the earlier
value in place (JS object semantics under `JSON.parse`). -/
def insertMember (k : String) (v : Json) : List (String × Json) → List (String × Json)
  | [] => [(k, v)]
  | (k0, v0) :: rest => if k0 == k then (k0, v) :: rest else (k0, v0) :: insertMember k v rest

mutual

/-- Parse one JSON value at the head of the input (leading whitespace already
skipped). -/
def parseJsonValue : Nat → List Char → Option (Json × List Char)
  | 0, _ => none
  | fuel + 1, l =>
    match l with
    | [] => none
    | c :: rest =>
      if c == dq then
        match parseStringBody (rest.length + 1) [] rest with
        | some (s, r) => some (.str s, r)
        | none => none
      else if c == obr then
        let r := skipJsonWs rest
        match r with
        | c2 :: r2 => if c2 == cbr then some (.obj [], r2) else parseJsonMembers fuel [] r
        | [] => none
      else if c == '[' then
        let r := skipJsonWs rest
        match r with
        | c2 :: r2 => if c2 == ']' then some (.arr [], r2) else parseJsonElements fuel [] r
        | [] => none
      else if c == 't' then
        match rest with
        | 'r' :: 'u' :: 'e' :: r => some (.bool true, r)
        | _ => none
      else if c == 'f' then
        match rest with
        | 'a' :: 'l' :: 's' :: 'e' :: r => some (.bool false, r)
        | _ => none
      else if c == 'n' then
        match rest with
        | 'u' :: 'l' :: 'l' :: r => some (.null, r)
        | _ => none
      else if c == '-' || c.isDigit then
        match parseNumberLit l with
        | some (lit, r) => some (.num lit, r)
        | none => none
      else none

/-- Parse the members of an object, positioned at a key (whitespace skipped),
until the closing brace. -/
def parseJsonMembers : Nat → List (String × Json) → List Char → Option (Json × List Char)
  | 0, _, _ => none
  | fuel + 1, acc, l =>
    match l with
    | c :: rest =>
      if c == dq then
        match parseStringBody (rest.length + 1) [] rest with
        | some (k, r1) =>
          match skipJsonWs r1 with
          | ':' :: r2 =>
            match parseJsonValue fuel (skipJsonWs r2) with
            | some (v, r3) =>
              match skipJsonWs r3 with
              | ',' :: r4 => parseJsonMembers fuel (insertMember k v acc) (skipJsonWs r4)
              | c2 :: r4 =>
                if c2 == cbr then some (.obj (insertMember k v acc), r4) else none
              | [] => none
            | none => none
          | _ => none
        | none => none
      else none
    | [] => none

/-- Parse the elements of an array, positioned at a value (whitespace skipped),
until the closing bracket. -/
def parseJsonElements : Nat → List Json → List Char → Option (Json × List Char)
  | 0, _, _ => none
  | fuel + 1, acc, l =>
    match parseJsonValue fuel l with
    | some (v, r1) =>
      match skipJsonWs r1 with
      | ',' :: r2 => parseJsonElements fuel (acc ++ [v]) (skipJsonWs r2)
      | ']' :: r2 => some (.arr (acc ++ [v]), r2)
      | _ => none
    | none => none

end

/-- `JSON.parse (s)`: parse one value surrounded by optional whitespace; the
whole text must be consumed.  `none` models a thrown `SyntaxError`. -/
def jsonParse (s : String) : Option Json :=
  match parseJsonValue (s.length + 1) (skipJsonWs s.toList) with
  | some (v, rest) => if (skipJsonWs rest).isEmpty then some v else none
  | none => none

/-- Does `\s*` followed by a literal ` ``` ` match here?  (`\s*` is greedy, but
a backtick is not whitespace, so maximal munch is the only candidate.) -/
def closesFence (l : List Char) : Bool :=
  match l.dropWhile isJsWhitespace with
  | c1 :: c2 :: c3 :: _ => c1 == btk && c2 == btk && c3 == btk
  | _ => false

/-- Consume a literal prefix (case-sensitive). -/
def dropPrefixLit : List Char → List Char → Option (List Char)
  | [], l => some l
  | _ :: _, [] => none
  | p :: ps, c :: cs => if c == p then dropPrefixLit ps cs else none

/-- Lazy body of the fenced-block capture `(\{[\s\S]*?\})`: at each position
first try to end the capture — a `\x7d` here followed by `\s*` and a closing
fence — otherwise consume one character (`[\s\S]` matches anything, including
line terminators and braces). -/
def fencedBody : Nat → List Char → List Char → Option (List Char)
  | 0, _, _ => none
  | fuel + 1, acc, l =>
    match l with
    | [] => none
    | c :: rest =>
      if c == cbr && closesFence rest then some (obr :: (acc.reverse ++ [cbr]))
      else fencedBody fuel (c :: acc) rest

/-- Try the pattern ` ```(?:json)?\s*(\{[\s\S]*?\})\s*``` ` at the head of the
input, returning the captured group.  `(?:json)?` is greedy: the variant that
consumes `json` is attempted first and the whole remainder of the pattern
backtracks to the variant without it. -/
def fencedTryAt (l : List Char) : Option (List Char) :=
  match dropPrefixLit [btk, btk, btk] l with
  | none => none
  | some l1 =>
    let attempt := fun (l2 : List Char) =>
      match l2.dropWhile isJsWhitespace with
      | c :: rest => if c == obr then fencedBody (rest.length + 1) [] rest else none
      | [] => none
    match dropPrefixLit ['j', 's', 'o', 'n'] l1 with
    | some l2 =>
      match attempt l2 with
      | some cap => some cap
      | none => attempt l1
    | none => attempt l1

/-- Leftmost match of the fenced-block regex: try every start position from the
left. -/
def fencedScan : Nat → List Char → Option (List Char)
  | 0, _ => none
  | fuel + 1, l =>
    match fencedTryAt l with
    | some cap => some cap
    | none =>
      match l with
      | [] => none
      | _ :: rest => fencedScan fuel rest

/-- `responseText.match (/```(?:json)?\s*(\{[\s\S]*?\})\s*```/)`, yielding the
first capture group. -/
def fencedMatch (s : String) : Option String :=
  (fencedScan (s.length + 1) s.toList).map (fun cs => String.mk cs)

/-- `responseText.match (/\{[\s\S]*\}/)`: the leftmost match runs from the
first `\x7b` of the text to the last `\x7d` of the text (the quantifier is
greedy and `[\s\S]` matches anything); there is no match when no `\x7d` follows
the first `\x7b`. -/
def objectMatch (s : String) : Option String :=
  let fromBrace := s.toList.dropWhile (fun c => c != obr)
  let upToLast := dropTrailing (fun c => c != cbr) fromBrace
  if upToLast.isEmpty then none else some (String.mk upToLast)

/-- Errors raised by `parseApiResponse`. -/
inductive ApiParseError where
  | fencedBlockParseFailed
  | extractedObjectParseFailed
  | noJsonFound
deriving DecidableEq, Repr

/-- `parseApiResponse` from `claude-api.js`: try `JSON.parse` on the whole
text; on failure try the fenced-code-block capture, then the first-brace-to-
last-brace extraction; a failing extraction parse or no match at all raises the
corresponding error (modelled as `Except.error` — the function never lets any
other exception escape). -/
def parseApiResponse (responseText : String) : Except ApiParseError Json :=
  match jsonParse responseText with
  | some v => .ok v
  | none =>
    match fencedMatch responseText with
    | some captured =>
      match jsonParse captured with
      | some v => .ok v
      | none => .error .fencedBlockParseFailed
    | none =>
      match objectMatch responseText with
      | some extracted =>
        match jsonParse extracted with
        | some v => .ok v
        | none => .error .extractedObjectParseFailed
      | none => .error .noJsonFound

/-! ### `image-handler.js`: image resolution -/

/-- The configuration slice `image-handler.js` reads from `settings.json`
(a file not part of the sources): the Unsplash enable flag and the
category-to-default-image mapping. -/
structure ImgConfig where
  unsplashEnabled : Bool
  defaultImages : List (String × String)
deriving DecidableEq, Repr

/-- The fixed generic fallback URL of `getCategoryDefaultImage`. -/
def genericFallbackUrl : String :=
  "https://images.unsplash.com/photo-1516414447565-b14be0adf13e?w=800&h=400&fit=crop"

/-- `getCategoryDefaultImage`: look the category up in the configured mapping
(`config.defaultImages && config.defaultImages[category]` — a missing or falsy
entry falls through), else the generic fallback. -/
def getCategoryDefaultImage (cfg : ImgConfig) (category : String) : String :=
  match cfg.defaultImages.lookup category with
  | some url => if url != "" then url else genericFallbackUrl
  | none => genericFallbackUrl

/-- One Unsplash photo record as consumed by `buildUnsplashUrl`: the `raw` and
`regular` URL variants (`""` models an absent/falsy variant). -/
structure Photo where
  rawUrl : String
  regularUrl : String
deriving DecidableEq, Repr

/-- `buildUnsplashUrl`: `photo.urls.raw || photo.urls.regular` plus fixed
display-dimension parameters. -/
def buildUnsplashUrl (photo : Photo) : String :=
  (if photo.rawUrl != "" then photo.rawUrl else photo.regularUrl) ++ "&w=800&h=400&fit=crop"

/-- Outcome injected for the `fetch` of `searchUnsplash`: the call throws, the
response is not ok, or it succeeds with a (possibly empty) result list. -/
inductive FetchOutcome where
  | throws
  | notOk
  | ok (results : List Photo)
deriving DecidableEq, Repr

/-- `searchUnsplash`: skip straight to the category default when the service is
disabled or no credential is configured (`!config.unsplashEnabled ||
!process.env.UNSPLASH_ACCESS_KEY`; an unset or empty variable is falsy);
otherwise any thrown error, non-ok status or empty result set falls back to the
category default, and a first result yields `buildUnsplashUrl` of it. -/
def searchUnsplash (cfg : ImgConfig) (apiKey : Option String) (fetch : FetchOutcome)
    (searchTerms : List String) (category : String) : String :=
  if !cfg.unsplashEnabled || apiKey.getD ("") == "" then
    getCategoryDefaultImage cfg category
  else
    match fetch with
    | .throws => getCategoryDefaultImage cfg category
    | .notOk => getCategoryDefaultImage cfg category
    | .ok [] => getCategoryDefaultImage cfg category
    | .ok (photo :: _) => buildUnsplashUrl photo

/-- `getImageForArticle`: missing or empty search terms go to the category
default; otherwise delegate to `searchUnsplash`, whose own failures already
resolve to the category default (the enclosing `catch` returns the category
default as well, so no exception escapes). -/
def getImageForArticle (cfg : ImgConfig) (apiKey : Option String) (fetch : FetchOutcome)
    (searchTerms : Option (List String)) (category : String) : String :=
  match searchTerms with
  | none => getCategoryDefaultImage cfg category
  | some terms =>
    if terms.isEmpty then getCategoryDefaultImage cfg category
    else searchUnsplash cfg apiKey fetch terms category

/-! ### Sample data used by concrete witnesses and counterexamples -/

/-- A category list standing for `config.categories`. -/
def catsGames : List String := [("Games")]

/-- A structurally valid article (slug `sample-post`). -/
def sampleValidArticle : Article :=
  ⟨some ("001"), some ("A Valid Title Here"), some ("sample-post"), some ("2025-01-02"),
   some ("Games"), some (String.mk (List.replicate 50 'e')),
   some (String.mk (List.replicate 100 'c')), some [("a"), ("b"), ("c")],
   some ("Simply Nerdy"), some ("https://example.com/i.png")⟩

/-- A structurally valid article whose slug is `my-topic`. -/
def sampleTopicArticle : Article :=
  ⟨some ("002"), some ("Another Valid Title"), some ("my-topic"), some ("2025-01-03"),
   some ("Games"), some (String.mk (List.replicate 50 'e')),
   some (String.mk (List.replicate 100 'c')), some [("a"), ("b"), ("c")],
   some ("Simply Nerdy"), some ("https://example.com/j.png")⟩

/-- An article valid except for its five-character title. -/
def badTitleArticle : Article :=
  ⟨some ("003"), some ("Hello"), some ("hello"), some ("2025-01-04"),
   some ("Games"), some (String.mk (List.replicate 50 'e')),
   some (String.mk (List.replicate 100 'c')), some [("a"), ("b"), ("c")],
   some ("Simply Nerdy"), some ("https://example.com/k.png")⟩

/-- A store already holding one article, with one older backup whose content
differs from the live store (the state left behind by a previous successful
append). -/
def fsWithStaleBackup : FileSystem :=
  ⟨some ⟨true, [sampleValidArticle]⟩, [(("20250101-000000"), some ⟨true, []⟩)]⟩

/-- A store holding a post with slug `my-topic` and no backups. -/
def fsWithTopicPost : FileSystem :=
  ⟨some ⟨true, [sampleTopicArticle]⟩, []⟩

/-- An article with all ten keys present, empty `title`, `excerpt` and
`content`, and every other field valid. -/
def emptyStringsArticle : Article :=
  ⟨some ("004"), some (""), some ("ok-slug"), some ("2025-01-05"), some ("Games"),
   some (""), some (""), some [("a"), ("b"), ("c")], some ("Simply Nerdy"),
   some ("http://example.com/l.png")⟩

/-! ### General lemmas about the embedding -/

theorem head_dropWhile_false (p : Char → Bool) (l : List Char) (c : Char)
    (h : (l.dropWhile p).head? = some c) : p c = false := by
  induction l with
  | nil => simp [List.dropWhile] at h
  | cons a t ih =>
    rw [List.dropWhile_cons] at h
    by_cases hp : p a
    · simp [hp] at h
      exact ih h
    · simp [hp] at h
      subst h
      simpa using hp

theorem toLower_isUpper_false (c : Char) : (Char.toLower c).isUpper = false := by
  unfold Char.toLower
  simp only []
  by_cases h : c.toNat ≥ 65 ∧ c.toNat ≤ 90
  · rw [if_pos h]
    obtain ⟨h1, h2⟩ := h
    have hv : (Char.toNat c + 32).isValidChar := by
      constructor
      omega
    rw [Char.ofNat, dif_pos hv]
    simp only [Char.isUpper]
    have hle : ¬ ((Char.ofNatAux (Char.toNat c + 32) hv).val ≤ 90) := by
      rw [UInt32.le_def, BitVec.le_def]
      change ¬ ((Char.ofNatAux (Char.toNat c + 32) hv).val.toNat ≤ (90 : UInt32).toBitVec.toNat)
      have hval : (Char.ofNatAux (Char.toNat c + 32) hv).val.toNat = Char.toNat c + 32 := by
        simp [Char.ofNatAux, UInt32.toNat]
      rw [hval, show ((90 : UInt32)).toBitVec.toNat = 90 from rfl]
      omega
    simp [hle]
  · rw [if_neg h]
    simp only [Char.isUpper]
    rw [Bool.and_eq_false_iff]
    by_cases h65 : (65 : UInt32) ≤ c.val
    · right
      have hng : ¬ (c.val ≤ 90) := by
        rw [UInt32.le_def, BitVec.le_def] at h65 ⊢
        change (65 : UInt32).toBitVec.toNat ≤ c.val.toNat at h65
        change ¬ (c.val.toNat ≤ (90 : UInt32).toBitVec.toNat)
        rw [show ((65 : UInt32)).toBitVec.toNat = 65 from rfl] at h65
        rw [show ((90 : UInt32)).toBitVec.toNat = 90 from rfl]
        have hcn : Char.toNat c = c.val.toNat := rfl
        omega
      simp [hng]
    · left
      simp only [GE.ge] at h65 ⊢
      simp [h65]

/-! ### Claim C6: transcript length validation -/

/-- C6 counterexample: the claim states that every transcript whose raw length
lies in [100, 100000] is valid, but `validateTranscript` measures the length of
the TRIMMED text: a 100-character transcript ending in a space (trimmed length
99) is rejected as too short. -/
theorem C6_counterexample :
    (String.mk (List.replicate 99 'a' ++ [' '])).length = 100 ∧
    100 ≤ (String.mk (List.replicate 99 'a' ++ [' '])).length ∧
    (String.mk (List.replicate 99 'a' ++ [' '])).length ≤ 100000 ∧
    validateTranscript (String.mk (List.replicate 99 'a' ++ [' '])) =
      ⟨false, some ("Transcript too short (minimum 100 characters)")⟩ := by
  refine ⟨by decide, by decide, by decide, by decide⟩

/-- C6 (amended): `validateTranscript` returns valid exactly when the input is
non-empty and its TRIMMED length lies in the inclusive range [100, 100000];
whenever it returns invalid it also returns a reason.  (Non-string input is
outside the string domain of this embedding; the code rejects it with the same
reason as the empty string.) -/
theorem C6_amended_thm (s : String) :
    ((validateTranscript s).valid = true ↔
      s ≠ "" ∧ 100 ≤ (jsTrim s).length ∧ (jsTrim s).length ≤ 100000) ∧
    ((validateTranscript s).valid = false → (validateTranscript s).error.isSome = true) := by
  unfold validateTranscript
  by_cases h0 : s = ""
  · simp [h0]
  · simp only [beq_iff_eq, h0, if_false]
    constructor
    · constructor
      · intro hv
        refine ⟨h0, ?_, ?_⟩ <;>
        · by_cases h1 : (jsTrim s).length < 100
          · simp [h1] at hv
          · by_cases h2 : (jsTrim s).length > 100000
            · simp [h1, h2] at hv
            · omega
      · rintro ⟨-, h1, h2⟩
        rw [if_neg (by omega), if_neg (by omega)]
    · intro hv
      by_cases h1 : (jsTrim s).length < 100
      · simp [h1]
      · by_cases h2 : (jsTrim s).length > 100000
        · simp [h1, h2]
        · simp [h1, h2] at hv

/-- C6 witness: the amended theorem applied to a concrete 100-character
transcript with no surrounding whitespace. -/
theorem C6_witness :
    (validateTranscript (String.mk (List.replicate 100 'a'))).valid = true :=
  (C6_amended_thm (String.mk (List.replicate 100 'a'))).1.mpr
    ⟨by decide, by decide, by decide⟩

/-! ### Claim C5: image resolution always falls back -/

/-- C5: `getImageForArticle` resolves to a URL in every circumstance: missing
or empty search terms, a disabled service or missing credential, a throwing
fetch, a non-ok response, or an empty result set all yield the category default
image; the category default falls back to the fixed generic URL when the
category is absent from the configured mapping; and in every remaining case
the result is the URL built from the first returned photo.  The function is
total (it never throws: every internal failure is caught and resolved to a
default). -/
theorem C5_thm (cfg : ImgConfig) (apiKey : Option String) (fetch : FetchOutcome)
    (searchTerms : Option (List String)) (category : String) :
    (searchTerms = none ∨ searchTerms = some [] →
      getImageForArticle cfg apiKey fetch searchTerms category =
        getCategoryDefaultImage cfg category) ∧
    (cfg.unsplashEnabled = false ∨ apiKey.getD ("") = "" →
      getImageForArticle cfg apiKey fetch searchTerms category =
        getCategoryDefaultImage cfg category) ∧
    (fetch = .throws ∨ fetch = .notOk ∨ fetch = .ok [] →
      getImageForArticle cfg apiKey fetch searchTerms category =
        getCategoryDefaultImage cfg category) ∧
    (cfg.defaultImages.lookup category = none →
      getCategoryDefaultImage cfg category = genericFallbackUrl) ∧
    (getImageForArticle cfg apiKey fetch searchTerms category =
        getCategoryDefaultImage cfg category ∨
      ∃ photo rest, fetch = .ok (photo :: rest) ∧
        getImageForArticle cfg apiKey fetch searchTerms category =
          buildUnsplashUrl photo) := by
  refine ⟨?_, ?_, ?_, ?_, ?_⟩
  · rintro (h | h) <;> simp [h, getImageForArticle]
  · intro h
    unfold getImageForArticle searchUnsplash
    have hcond : (!cfg.unsplashEnabled || apiKey.getD ("") == "") = true := by
      rcases h with h | h <;> simp [h]
    cases searchTerms with
    | none => rfl
    | some terms =>
      by_cases hterms : terms.isEmpty <;> simp [hterms, hcond]
  · intro h
    unfold getImageForArticle searchUnsplash
    cases searchTerms with
    | none => rfl
    | some terms =>
      by_cases hterms : terms.isEmpty
      · simp [hterms]
      · rcases h with h | h | h <;>
          simp [hterms, h]
  · intro h
    unfold getCategoryDefaultImage
    rw [h]
  · unfold getImageForArticle searchUnsplash
    cases searchTerms with
    | none => exact .inl rfl
    | some terms =>
      by_cases hterms : terms.isEmpty
      · simp [hterms]
      · by_cases hcond : (!cfg.unsplashEnabled || apiKey.getD ("") == "") = true
        · simp [hterms, hcond]
        · cases fetch with
          | throws => simp [hterms, hcond]
          | notOk => simp [hterms, hcond]
          | ok results =>
            cases results with
            | nil => simp [hterms, hcond]
            | cons photo rest =>
              right
              exact ⟨photo, rest, rfl, by simp [hterms, hcond]⟩

/-- C5 witness: the theorem applied at a concrete configuration — a throwing
fetch falls back to the category default, and an unmapped category falls back
to the generic URL. -/
theorem C5_witness :
    getImageForArticle ⟨true, []⟩ (some ("k")) .throws (some [("cats")]) ("Tech") =
      getCategoryDefaultImage ⟨true, []⟩ ("Tech") ∧
    getCategoryDefaultImage ⟨true, []⟩ ("Tech") = genericFallbackUrl :=
  have h := C5_thm ⟨true, []⟩ (some ("k")) .throws (some [("cats")]) ("Tech")
  ⟨h.2.2.1 (.inl rfl), h.2.2.2.1 rfl⟩

/-! ### Claim C10: empty strings skip every gated format check -/

/-- C10: every format check of `validateArticleStructure` is gated on the
field's JavaScript truthiness, and the empty string is falsy — so an article
presenting all ten keys with empty `title`, `excerpt` and `content` but valid
remaining fields validates cleanly with an empty error list (no length
violation is emitted for the empty fields). -/
theorem C10_thm (categories : List String) (a : Article)
    (ht : a.title = some (""))
    (he : a.excerpt = some (""))
    (hc : a.content = some (""))
    (hid : ∃ s, a.id = some s ∧ matchesIdPattern s = true)
    (hslug : ∃ s, a.slug = some s ∧ matchesSlugPattern s = true)
    (hdate : ∃ s, a.date = some s ∧ matchesDatePattern s = true)
    (hcat : ∃ s, a.category = some s ∧ categories.contains s = true)
    (htags : ∃ l, a.tags = some l ∧ 3 ≤ l.length)
    (hauthor : a.author = some ("Simply Nerdy"))
    (himg : ∃ s, a.image = some s ∧ jsStartsWith s ("http") = true) :
    validateArticleStructure categories a = ⟨true, []⟩ := by
  obtain ⟨sid, hid1, hid2⟩ := hid
  obtain ⟨sslug, hslug1, hslug2⟩ := hslug
  obtain ⟨sdate, hdate1, hdate2⟩ := hdate
  obtain ⟨scat, hcat1, hcat2⟩ := hcat
  obtain ⟨ltags, htags1, htags2⟩ := htags
  obtain ⟨simg, himg1, himg2⟩ := himg
  have hmem : scat ∈ categories := by simpa using hcat2
  have herrs : articleErrors categories a = [] := by
    unfold articleErrors
    rw [ht, he, hc, hid1, hslug1, hdate1, hcat1, htags1, hauthor, himg1]
    simp [truthy, hid2, hslug2, hdate2, hcat2, hmem, himg2, Nat.not_lt.mpr htags2]
  unfold validateArticleStructure
  rw [herrs]
  rfl

/-- C10 witness: the theorem applied to a concrete article with empty title,
excerpt and content. -/
theorem C10_witness : validateArticleStructure catsGames emptyStringsArticle = ⟨true, []⟩ :=
  C10_thm catsGames emptyStringsArticle rfl rfl rfl
    ⟨("004"), rfl, by decide⟩ ⟨("ok-slug"), rfl, by decide⟩
    ⟨("2025-01-05"), rfl, by decide⟩ ⟨("Games"), rfl, by decide⟩
    ⟨[("a"), ("b"), ("c")], rfl, by decide⟩ rfl
    ⟨("http://example.com/l.png"), rfl, by decide⟩

/-! ### Claim C9: id generation beyond 999 -/

theorem digitChar_isDigit (n : Nat) (h : n < 10) : (Nat.digitChar n).isDigit = true := by
  interval_cases n <;> decide

theorem natDigitsAux_all_digits (fuel n : Nat) :
    (natDigitsAux fuel n).all Char.isDigit = true := by
  induction fuel generalizing n with
  | zero => rfl
  | succ f ih =>
    unfold natDigitsAux
    by_cases h : n < 10
    · simp [h, digitChar_isDigit n h]
    · have hm : n % 10 < 10 := Nat.mod_lt n (by norm_num)
      simp [h, List.all_append, ih (n / 10), digitChar_isDigit (n % 10) hm]

theorem natDigitsAux_len_ge (k : Nat) : ∀ fuel n, n < fuel → 10 ^ k ≤ n →
    k + 1 ≤ (natDigitsAux fuel n).length := by
  induction k with
  | zero =>
    intro fuel n hf hn
    cases fuel with
    | zero => omega
    | succ f =>
      unfold natDigitsAux
      split <;> simp
  | succ k ih =>
    intro fuel n hf hn
    cases fuel with
    | zero => omega
    | succ f =>
      unfold natDigitsAux
      have h10 : ¬ (n < 10) := by
        have hk : (10 : Nat) ≤ 10 ^ (k + 1) := by
          calc (10 : Nat) = 10 ^ 1 := by norm_num
          _ ≤ 10 ^ (k + 1) := Nat.pow_le_pow_right (by norm_num) (by omega)
        omega
      rw [if_neg h10]
      rw [List.length_append]
      have hdiv : 10 ^ k ≤ n / 10 := by
        rw [Nat.le_div_iff_mul_le (by norm_num)]
        calc 10 ^ k * 10 = 10 ^ (k + 1) := by ring
        _ ≤ n := hn
      have hlt : n / 10 < f := by
        have := Nat.div_lt_self (show 0 < n by omega) (show (1 : Nat) < 10 by norm_num)
        omega
      have := ih f (n / 10) hlt hdiv
      simp only [List.length_cons, List.length_nil]
      omega

/-- C9: when the parsed numeric value of `currentMaxId` is at least 999,
`generateId` yields a pure-digit string longer than three characters
(e.g. `generateId "999" = "1000"`), which fails the store's `^\d{3}$` id
pattern; `validateArticleStructure` therefore reports the id violation for any
article carrying such an id and marks it invalid, so `appendArticle` rejects
every such append with a validation error: the fixed-width 3-digit id scheme
only sustains the first 999 articles. -/
theorem C9_thm (s : String) (n : Int) (hp : jsParseInt s = some n) (hn : 999 ≤ n) :
    3 < (generateId s).length ∧
    (generateId s).toList.all Char.isDigit = true ∧
    matchesIdPattern (generateId s) = false ∧
    ∀ (categories : List String) (a : Article), a.id = some (generateId s) →
      idFormatMsg ∈ (validateArticleStructure categories a).errors ∧
      (validateArticleStructure categories a).valid = false ∧
      ∀ (maxBackups : Nat) (ts : String) (fl : Faults) (f : FileSystem),
        ∃ msg, (appendArticle categories maxBackups ts fl f a).2 =
          .error (.validationFailed msg) := by
  have hgen : generateId s = jsNatToString (n + 1).toNat := by
    unfold generateId
    rw [hp]
    simp only [Option.getD_some]
    have hpos : ¬ ((n + 1 : Int) < 0) := by omega
    rw [jsIntToString, if_neg hpos]
    have hlen : 4 ≤ (jsNatToString (n + 1).toNat).length := by
      unfold jsNatToString
      show 4 ≤ (natDigitsAux ((n + 1).toNat + 1) (n + 1).toNat).length
      have := natDigitsAux_len_ge 3 ((n + 1).toNat + 1) (n + 1).toNat (by omega)
        (by simp only [show (10 : Nat) ^ 3 = 1000 by norm_num]; omega)
      omega
    unfold padStart
    rw [if_neg (by omega)]
  have hlen : 4 ≤ (generateId s).length := by
    rw [hgen]
    unfold jsNatToString
    show 4 ≤ (natDigitsAux ((n + 1).toNat + 1) (n + 1).toNat).length
    have := natDigitsAux_len_ge 3 ((n + 1).toNat + 1) (n + 1).toNat (by omega)
      (by simp only [show (10 : Nat) ^ 3 = 1000 by norm_num]; omega)
    omega
  have hdigits : (generateId s).toList.all Char.isDigit = true := by
    rw [hgen]
    exact natDigitsAux_all_digits _ _
  have hpat : matchesIdPattern (generateId s) = false := by
    unfold matchesIdPattern
    have : ((generateId s).length == 3) = false := by
      rw [beq_eq_false_iff_ne]
      omega
    simp [this]
  refine ⟨by omega, hdigits, hpat, ?_⟩
  intro categories a hid
  have htr : truthy a.id = true := by
    rw [hid]
    unfold truthy
    rw [bne_iff_ne]
    intro hcon
    have := congrArg String.length hcon
    simp at this
    omega
  have hmem : idFormatMsg ∈ (validateArticleStructure categories a).errors := by
    simp only [validateArticleStructure]
    unfold articleErrors
    have hgate : (truthy a.id && !matchesIdPattern (a.id.getD (""))) = true := by
      rw [hid] at htr ⊢
      simp only [Option.getD_some]
      simp [htr, hpat]
    simp [hgate]
  have hvalid : (validateArticleStructure categories a).valid = false := by
    have hne : articleErrors categories a ≠ [] := by
      have := List.ne_nil_of_mem hmem
      simpa only [validateArticleStructure] using this
    simp only [validateArticleStructure]
    rw [Bool.eq_false_iff]
    intro hemp
    exact hne (List.isEmpty_iff.mp hemp)
  refine ⟨hmem, hvalid, ?_⟩
  intro maxBackups ts fl f
  have happ : appendArticle categories maxBackups ts fl f a =
      (tryRestore fl.restoreOk f,
       .error (.validationFailed ("Article validation failed:\n" ++
         String.intercalate ("\n") (validateArticleStructure categories a).errors))) := by
    unfold appendArticle
    simp only [hvalid, Bool.false_eq_true, if_false]
  exact ⟨_, by rw [happ]⟩

/-- C9 witness: `generateId "999" = "1000"`, which fails the id pattern and
invalidates a concrete article carrying it. -/
theorem C9_witness :
    generateId ("999") = "1000" ∧
    matchesIdPattern (generateId ("999")) = false ∧
    idFormatMsg ∈ (validateArticleStructure catsGames
      ⟨some (generateId ("999")), none, none, none, none, none, none, none, none, none⟩).errors :=
  have h := C9_thm ("999") 999 (by decide) (by decide)
  ⟨by decide, h.2.2.1,
   (h.2.2.2 catsGames
     ⟨some (generateId ("999")), none, none, none, none, none, none, none, none, none⟩ rfl).1⟩

/-! ### Claim C7: slug alphabet -/

theorem mem_dropTrailing (p : Char → Bool) (l : List Char) (c : Char)
    (h : c ∈ dropTrailing p l) : c ∈ l := by
  unfold dropTrailing at h
  have h1 : c ∈ l.reverse.dropWhile p := by simpa using h
  have h2 := List.Sublist.mem h1 (List.dropWhile_sublist p)
  simpa using h2

theorem mem_trimChars (l : List Char) (c : Char) (h : c ∈ trimChars l) : c ∈ l := by
  unfold trimChars at h
  exact List.Sublist.mem (mem_dropTrailing _ _ _ h) (List.dropWhile_sublist _)

theorem mem_collapseRuns (b : Bool) (l : List Char) (c : Char)
    (h : c ∈ collapseRuns b l) :
    c = '-' ∨ (c ∈ l ∧ isCollapseChar c = false) := by
  induction l generalizing b with
  | nil => simp [collapseRuns] at h
  | cons a t ih =>
    unfold collapseRuns at h
    by_cases ha : isCollapseChar a
    · rw [if_pos ha] at h
      cases b with
      | true =>
        rcases ih true h with h2 | ⟨h2, h3⟩
        · exact .inl h2
        · exact .inr ⟨List.mem_cons_of_mem a h2, h3⟩
      | false =>
        rcases List.mem_cons.mp h with h2 | h2
        · exact .inl h2
        · rcases ih true h2 with h3 | ⟨h3, h4⟩
          · exact .inl h3
          · exact .inr ⟨List.mem_cons_of_mem a h3, h4⟩
    · rw [if_neg ha] at h
      rcases List.mem_cons.mp h with h2 | h2
      · refine .inr ⟨?_, ?_⟩
        · rw [h2]
          exact List.mem_cons_self _ _
        · rw [h2]
          simpa using ha
      · rcases ih false h2 with h3 | ⟨h3, h4⟩
        · exact .inl h3
        · exact .inr ⟨List.mem_cons_of_mem a h3, h4⟩

theorem mem_stripEdgeHyphens (l : List Char) (c : Char) (h : c ∈ stripEdgeHyphens l) :
    c ∈ l := by
  unfold stripEdgeHyphens at h
  exact List.Sublist.mem (mem_dropTrailing _ _ _ h) (List.dropWhile_sublist _)

theorem head_stripEdgeHyphens (l : List Char) : (stripEdgeHyphens l).head? ≠ some '-' := by
  unfold stripEdgeHyphens dropTrailing
  cases hr : ((l.dropWhile (fun c => c == '-')).reverse.dropWhile (fun c => c == '-')).reverse with
  | nil => simp
  | cons x xs =>
    have hpre : ((l.dropWhile (fun c => c == '-')).reverse.dropWhile
        (fun c => c == '-')).reverse <+: l.dropWhile (fun c => c == '-') := by
      have hsuf := List.dropWhile_suffix (l := (l.dropWhile (fun c => c == '-')).reverse)
        (fun c => c == '-')
      have := List.reverse_prefix.mpr hsuf
      simpa using this
    rw [hr] at hpre
    obtain ⟨t, ht⟩ := hpre
    have hm : (l.dropWhile (fun c => c == '-')).head? = some x := by
      rw [← ht]
      rfl
    have hx := head_dropWhile_false _ l x hm
    simpa using hx

theorem last_stripEdgeHyphens (l : List Char) : (stripEdgeHyphens l).getLast? ≠ some '-' := by
  unfold stripEdgeHyphens dropTrailing
  rw [List.getLast?_reverse]
  cases hh : ((l.dropWhile (fun c => c == '-')).reverse.dropWhile (fun c => c == '-')).head? with
  | none => simp
  | some x =>
    have hx := head_dropWhile_false _ _ _ hh
    simpa using hx

/-- C7: for every input, `generateSlug` produces a string over the alphabet
`[a-z0-9-]` with no leading and no trailing hyphen.  (`generateSlug` is a plain
function of its input — a pure deterministic string transform by
construction.) -/
theorem C7_thm (s : String) :
    ((generateSlug s).toList.all (fun c => c.isLower || c.isDigit || c == '-') = true) ∧
    (generateSlug s).toList.head? ≠ some '-' ∧
    (generateSlug s).toList.getLast? ≠ some '-' := by
  have htl : (generateSlug s).toList =
      stripEdgeHyphens (collapseRuns false ((trimChars (s.toList.map Char.toLower)).filter
        (fun c => isWordChar c || isJsWhitespace c || c == '-'))) := rfl
  refine ⟨?_, ?_, ?_⟩
  · rw [htl, List.all_eq_true]
    intro c hc
    have h1 := mem_stripEdgeHyphens _ _ hc
    rcases mem_collapseRuns _ _ _ h1 with h2 | ⟨h2, h3⟩
    · simp [h2]
    · rw [List.mem_filter] at h2
      obtain ⟨h4, h5⟩ := h2
      have h6 := mem_trimChars _ _ h4
      rw [List.mem_map] at h6
      obtain ⟨c0, -, hc0⟩ := h6
      have h7 : c.isUpper = false := by
        rw [← hc0]
        exact toLower_isUpper_false c0
      unfold isCollapseChar at h3
      simp only [Bool.or_eq_false_iff] at h3
      obtain ⟨⟨hws, hu⟩, hh⟩ := h3
      unfold isWordChar at h5
      simp only [hws, hu, hh, Bool.or_false] at h5
      unfold Char.isAlphanum Char.isAlpha at h5
      simp only [h7, Bool.false_or] at h5
      rcases Bool.or_eq_true_iff.mp h5 with h8 | h8 <;> simp [h8]
  · rw [htl]
    exact head_stripEdgeHyphens _
  · rw [htl]
    exact last_stripEdgeHyphens _

/-! ### Claims C1, C2, C8: `appendArticle` -/

theorem foldl_max_timestamp (bs : List (String × Option StoreData))
    (acc : String × Option StoreData) (h : ∀ p ∈ bs, p.1 < acc.1) :
    bs.foldl (fun acc x => if acc.1 < x.1 then x else acc) acc = acc := by
  induction bs generalizing acc with
  | nil => rfl
  | cons y ys ih =>
    rw [List.foldl_cons]
    have hy : y.1 < acc.1 := h y (List.mem_cons_self _ _)
    rw [if_neg (lt_asymm hy)]
    exact ih _ (fun p hp => h p (List.mem_cons_of_mem _ hp))

theorem latestBackup_cons_of_max (t : String) (c : Option StoreData)
    (bs : List (String × Option StoreData)) (h : ∀ p ∈ bs, p.1 < t) :
    latestBackup ((t, c) :: bs) = some (t, c) := by
  rw [show latestBackup ((t, c) :: bs) =
    some (bs.foldl (fun acc x => if acc.1 < x.1 then x else acc) (t, c)) from rfl]
  rw [foldl_max_timestamp bs (t, c) h]

theorem cleanOldBackups_store (m : Nat) (f : FileSystem) :
    (cleanOldBackups m f).store = f.store := by
  unfold cleanOldBackups
  split <;> rfl

/-- C1: the claim (and the spec) state that a validation failure leaves the
store file untouched.  The code instead runs its catch-all recovery: the
`catch` of `appendArticle` calls `restoreFromBackup ()` even when the thrown
error was the validation error, overwriting the live store with the most
recent backup.  Evaluated at a store holding one article plus an older backup
without it, appending a five-character-title article raises the validation
error listing exactly the violated rule — but the live store is overwritten by
the stale backup, silently deleting the stored article. -/
theorem C1_code_bug_eval :
    (appendArticle catsGames 10 ("20250102-120000") ⟨.ok, true⟩ fsWithStaleBackup
        badTitleArticle).2 =
      .error (.validationFailed ("Article validation failed:\n" ++ titleLengthMsg)) ∧
    fsWithStaleBackup.store = some ⟨true, [sampleValidArticle]⟩ ∧
    (appendArticle catsGames 10 ("20250102-120000") ⟨.ok, true⟩ fsWithStaleBackup
        badTitleArticle).1.store = some ⟨true, []⟩ ∧
    (appendArticle catsGames 10 ("20250102-120000") ⟨.ok, true⟩ fsWithStaleBackup
        badTitleArticle).1.store ≠ fsWithStaleBackup.store := by
  refine ⟨rfl, rfl, by decide, by decide⟩

/-- C2: for a valid article, when the write step fails after the backup was
created — `fs.writeFile` throws (whatever state it leaves the file in), or the
post-write integrity verification fails — the original write error is the one
raised to the caller (a restore failure never replaces it), and when the
restore copy succeeds the live store ends up equal to the pre-append backup
content.  The hypothesis on `ts` states that this run's backup timestamp is
fresher than every existing backup's. -/
theorem C2_thm (categories : List String) (maxBackups : Nat) (ts : String) (fl : Faults)
    (f : FileSystem) (a : Article) (data : StoreData)
    (hv : (validateArticleStructure categories a).valid = true)
    (hstore : f.store = some data)
    (hts : ∀ p ∈ f.backups, p.1 < ts)
    (hfail : (∃ leftover, fl.writeOutcome = .fail leftover) ∨
             (fl.writeOutcome = .ok ∧ data.instructionsPresent = false)) :
    (appendArticle categories maxBackups ts fl f a).2 = .error .writeFailed ∧
    (fl.restoreOk = true →
      (appendArticle categories maxBackups ts fl f a).1.store = f.store) := by
  have hlb := latestBackup_cons_of_max ts (some data) f.backups hts
  rcases hfail with ⟨leftover, hwo⟩ | ⟨hwo, hinstr⟩
  · have happ : appendArticle categories maxBackups ts fl f a =
        (tryRestore fl.restoreOk ⟨leftover, (ts, some data) :: f.backups⟩,
         .error .writeFailed) := by
      unfold appendArticle
      simp only [hv, if_true, hstore, hwo]
    refine ⟨by rw [happ], ?_⟩
    intro hro
    rw [happ]
    simp only [tryRestore]
    rw [hlb]
    simp [hro, hstore]
  · have happ : appendArticle categories maxBackups ts fl f a =
        (tryRestore fl.restoreOk
          ⟨some { data with posts := data.posts ++
            [if data.posts.any (fun p => p.slug == a.slug) then
              { a with slug := a.slug.map (fun s => s ++ "-" ++ ts) } else a] },
           (ts, some data) :: f.backups⟩,
         .error .writeFailed) := by
      unfold appendArticle
      simp only [hv, if_true, hstore, hwo, hinstr, Bool.false_eq_true, if_false]
    refine ⟨by rw [happ], ?_⟩
    intro hro
    rw [happ]
    simp only [tryRestore]
    rw [hlb]
    simp [hro, hstore]

/-- C2 witness: a concrete run in which the write throws leaving the file
corrupted; the error surfaces and the store equals its pre-append content. -/
theorem C2_witness :
    (appendArticle catsGames 10 ("20250102-120000") ⟨.fail none, true⟩
        ⟨some ⟨true, []⟩, [(("20250101-000000"), some ⟨true, []⟩)]⟩ sampleValidArticle).2 =
      .error .writeFailed ∧
    (appendArticle catsGames 10 ("20250102-120000") ⟨.fail none, true⟩
        ⟨some ⟨true, []⟩, [(("20250101-000000"), some ⟨true, []⟩)]⟩ sampleValidArticle).1.store =
      (⟨some ⟨true, []⟩, [(("20250101-000000"), some ⟨true, []⟩)]⟩ : FileSystem).store :=
  have h := C2_thm catsGames 10 ("20250102-120000") ⟨.fail none, true⟩
    ⟨some ⟨true, []⟩, [(("20250101-000000"), some ⟨true, []⟩)]⟩ sampleValidArticle ⟨true, []⟩
    (by decide) rfl
    (by
      intro p hp
      simp only [List.mem_singleton] at hp
      subst hp
      rw [String.lt_iff_toList_lt]
      decide)
    (.inl ⟨none, rfl⟩)
  ⟨h.1, h.2 rfl⟩

/-- C8: appending a valid article whose slug collides with a stored post's slug
(`my-topic`) stores it with slug `my-topic-<timestamp>`, which differs from the
existing slug; an article whose slug collides with no stored post is stored
with its slug unchanged. -/
theorem C8_thm (categories : List String) (maxBackups : Nat) (ts : String)
    (restoreOk : Bool) (f : FileSystem) (a : Article) (data : StoreData)
    (hv : (validateArticleStructure categories a).valid = true)
    (hstore : f.store = some data)
    (hinstr : data.instructionsPresent = true) :
    (a.slug = some ("my-topic") → (∃ p ∈ data.posts, p.slug = some ("my-topic")) →
      (appendArticle categories maxBackups ts ⟨.ok, restoreOk⟩ f a).2 = .ok () ∧
      (appendArticle categories maxBackups ts ⟨.ok, restoreOk⟩ f a).1.store =
        some { data with posts := data.posts ++
          [{ a with slug := some ("my-topic" ++ "-" ++ ts) }] } ∧
      ("my-topic" ++ "-" ++ ts) ≠ "my-topic") ∧
    ((∀ p ∈ data.posts, p.slug ≠ a.slug) →
      (appendArticle categories maxBackups ts ⟨.ok, restoreOk⟩ f a).2 = .ok () ∧
      (appendArticle categories maxBackups ts ⟨.ok, restoreOk⟩ f a).1.store =
        some { data with posts := data.posts ++ [a] }) := by
  constructor
  · intro hslug hdup
    have hany : data.posts.any (fun p => p.slug == some ("my-topic")) = true := by
      rw [List.any_eq_true]
      obtain ⟨p, hp, hps⟩ := hdup
      exact ⟨p, hp, by simp [hps]⟩
    have happ : appendArticle categories maxBackups ts ⟨.ok, restoreOk⟩ f a =
        (cleanOldBackups maxBackups
          ⟨some { data with posts := data.posts ++
            [{ a with slug := some ("my-topic" ++ "-" ++ ts) }] },
           (ts, some data) :: f.backups⟩,
         .ok ()) := by
      unfold appendArticle
      simp only [hv, if_true, hstore, hslug, hany, Option.map_some, hinstr]
      rfl
    refine ⟨by rw [happ], ?_, ?_⟩
    · rw [happ]
      rw [cleanOldBackups_store]
    · intro hcon
      have := congrArg String.length hcon
      rw [String.length_append, String.length_append] at this
      have h8 : ("my-topic" : String).length = 8 := rfl
      have h1 : ("-" : String).length = 1 := rfl
      omega
  · intro hnodup
    have hany : data.posts.any (fun p => p.slug == a.slug) = false := by
      rw [List.any_eq_false]
      intro p hp
      simp only [beq_iff_eq]
      exact hnodup p hp
    have happ : appendArticle categories maxBackups ts ⟨.ok, restoreOk⟩ f a =
        (cleanOldBackups maxBackups
          ⟨some { data with posts := data.posts ++ [a] }, (ts, some data) :: f.backups⟩,
         .ok ()) := by
      unfold appendArticle
      simp only [hv, if_true, hstore, hany, Bool.false_eq_true, if_false, hinstr]
    refine ⟨by rw [happ], ?_⟩
    rw [happ]
    rw [cleanOldBackups_store]

/-- C8 witness: the theorem applied to a concrete store holding a post with
slug `my-topic` and a concrete valid colliding article. -/
theorem C8_witness :
    (appendArticle catsGames 10 ("20250103-090000") ⟨.ok, true⟩ fsWithTopicPost
        sampleTopicArticle).2 = .ok () ∧
    (appendArticle catsGames 10 ("20250103-090000") ⟨.ok, true⟩ fsWithTopicPost
        sampleTopicArticle).1.store =
      some ⟨true, [sampleTopicArticle,
        { sampleTopicArticle with slug := some ("my-topic" ++ "-" ++ "20250103-090000") }]⟩ ∧
    ("my-topic" ++ "-" ++ "20250103-090000") ≠ "my-topic" :=
  have h := (C8_thm catsGames 10 ("20250103-090000") true fsWithTopicPost
    sampleTopicArticle ⟨true, [sampleTopicArticle]⟩ (by decide) rfl rfl).1 rfl
    ⟨sampleTopicArticle, List.mem_singleton.mpr rfl, rfl⟩
  ⟨h.1, h.2.1, h.2.2⟩

/-! ### Claim C4: `sanitizeHtml` -/

/-- C4: the claim (and the spec's intent for a sanitizer) is that every paired
occurrence of a denylisted tag is removed, with all other markup untouched.
The paired-tag regexes are built without the `s` flag, so `.` refuses line
terminators and a `<script>` element whose body contains a newline survives
sanitization verbatim (first conjunct) even though the single-line form is
removed (second conjunct); moreover `<tag[^>]*` also matches longer tag names,
so unrelated markup such as `<formal/>` (matching `<form[^>]*/>`) is deleted
(third conjunct), contradicting the character-for-character preservation of
other markup.  Quoted inline event handlers are removed as claimed (fourth
conjunct). -/
theorem C4_code_bug_eval :
    sanitizeHtml ("<script>alert(1);\nsteal();</script>") =
      "<script>alert(1);\nsteal();</script>" ∧
    sanitizeHtml ("<p>Hello</p><script>alert(1)</script><strong>x</strong>") =
      "<p>Hello</p><strong>x</strong>" ∧
    sanitizeHtml ("<p>x</p><formal/>") = "<p>x</p>" ∧
    sanitizeHtml ("<p onclick=\"do()\">x</p>") = "<p >x</p>" := by
  refine ⟨by decide, by decide, by decide, by decide⟩

/-! ### Claim C3: `parseApiResponse` -/

theorem objectMatch_some_decomp (s m : String) (h : objectMatch s = some m) :
    ∃ l1 l2 l3, s.toList = l1 ++ obr :: (l2 ++ cbr :: l3) := by
  unfold objectMatch at h
  by_cases he : (dropTrailing (fun c => c != cbr)
      (s.toList.dropWhile (fun c => c != obr))).isEmpty
  · rw [if_pos he] at h
    cases h
  · have hne : dropTrailing (fun c => c != cbr)
        (s.toList.dropWhile (fun c => c != obr)) ≠ [] := by
      simpa [List.isEmpty_iff] using he
    have hpre : dropTrailing (fun c => c != cbr)
        (s.toList.dropWhile (fun c => c != obr)) <+:
        s.toList.dropWhile (fun c => c != obr) := by
      unfold dropTrailing
      have hsuf := List.dropWhile_suffix
        (l := (s.toList.dropWhile (fun c => c != obr)).reverse) (fun c => c != cbr)
      have := List.reverse_prefix.mpr hsuf
      simpa using this
    obtain ⟨t, ht⟩ := hpre
    obtain ⟨x, xs, hx⟩ : ∃ x xs, dropTrailing (fun c => c != cbr)
        (s.toList.dropWhile (fun c => c != obr)) = x :: xs := by
      cases hc : dropTrailing (fun c => c != cbr)
          (s.toList.dropWhile (fun c => c != obr)) with
      | nil => exact absurd hc hne
      | cons a b => exact ⟨a, b, rfl⟩
    have hhead : (s.toList.dropWhile (fun c => c != obr)).head? = some x := by
      rw [← ht, hx]
      rfl
    have hxobr : x = obr := by
      have := head_dropWhile_false _ _ _ hhead
      simpa using this
    have hlast : (dropTrailing (fun c => c != cbr)
        (s.toList.dropWhile (fun c => c != obr))).getLast? = some cbr := by
      unfold dropTrailing
      rw [List.getLast?_reverse]
      cases hh : ((s.toList.dropWhile (fun c => c != obr)).reverse.dropWhile
          (fun c => c != cbr)).head? with
      | none =>
        exfalso
        apply hne
        unfold dropTrailing
        rw [List.head?_eq_none_iff] at hh
        rw [hh]
        rfl
      | some y =>
        have := head_dropWhile_false _ _ _ hh
        have hy : y = cbr := by simpa using this
        rw [hy]
    have hcmem : cbr ∈ xs := by
      have h1 : cbr ∈ x :: xs := by
        rw [← hx]
        exact List.mem_of_mem_getLast? hlast
      rcases List.mem_cons.mp h1 with h2 | h2
      · exact absurd (show cbr = obr from h2.trans hxobr) (by decide)
      · exact h2
    obtain ⟨l2, l3x, hl23⟩ := List.append_of_mem hcmem
    refine ⟨s.toList.takeWhile (fun c => c != obr), l2, l3x ++ t, ?_⟩
    have hsplit := List.takeWhile_append_dropWhile (fun c => c != obr) s.toList
    calc s.toList = s.toList.takeWhile (fun c => c != obr) ++
        s.toList.dropWhile (fun c => c != obr) := hsplit.symm
    _ = s.toList.takeWhile (fun c => c != obr) ++ ((x :: xs) ++ t) := by rw [← ht, hx]
    _ = s.toList.takeWhile (fun c => c != obr) ++ (obr :: (l2 ++ cbr :: (l3x ++ t))) := by
        rw [hxobr, hl23]
        simp

/-- C3 counterexample: the claim reads shape (c) as "the first top-level
`\x7b...\x7d` object anywhere in the text", but the regex `/\x7b[\s\S]*\x7d/`
is greedy: it spans from the first `\x7b` of the text to the LAST `\x7d`.  A
text that begins with a complete, parsable JSON object but is followed by
prose containing another `\x7d` therefore fails with a parse error instead of
returning that object. -/
theorem C3_counterexample :
    jsonParse ("\x7b\"a\": 1\x7d") = some (.obj [(("a"), .num ("1"))]) ∧
    ("\x7b\"a\": 1\x7d trailing \x7d" : String) = "\x7b\"a\": 1\x7d" ++ " trailing \x7d" ∧
    parseApiResponse ("\x7b\"a\": 1\x7d trailing \x7d") =
      .error .extractedObjectParseFailed := by
  exact ⟨rfl, rfl, rfl⟩

/-- C3 (amended): `parseApiResponse` attempts three shapes in order — (a) the
whole text as JSON, (b) the leftmost fenced code block whose lazily-matched
brace-delimited body parses, (c) the substring from the first `\x7b` to the
last `\x7d` of the text (rather than the first complete object) — returning
the first successful parse, including a bare JSON text, a ```json fenced
block, and leading prose followed by a trailing `\x7b...\x7d` object; when no
attempt applies (in particular when the text contains no `\x7b` followed later
by a `\x7d`, by the fifth conjunct) it raises a parse error rather than
crashing (every outcome is a value of the `Except` result type). -/
theorem C3_amended_thm :
    (∀ (s : String) (v : Json), jsonParse s = some v → parseApiResponse s = .ok v) ∧
    (∀ (s m : String) (v : Json), jsonParse s = none → fencedMatch s = some m →
      jsonParse m = some v → parseApiResponse s = .ok v) ∧
    (∀ (s m : String) (v : Json), jsonParse s = none → fencedMatch s = none →
      objectMatch s = some m → jsonParse m = some v → parseApiResponse s = .ok v) ∧
    (∀ (s : String), jsonParse s = none → fencedMatch s = none →
      (¬ ∃ l1 l2 l3, s.toList = l1 ++ obr :: (l2 ++ cbr :: l3)) →
      parseApiResponse s = .error .noJsonFound) ∧
    (∀ (s m : String), objectMatch s = some m →
      ∃ l1 l2 l3, s.toList = l1 ++ obr :: (l2 ++ cbr :: l3)) ∧
    (parseApiResponse ("\x7b\"title\": \"x\"\x7d") = .ok (.obj [(("title"), .str ("x"))])) ∧
    (parseApiResponse ("```json\n\x7b\"a\": 1\x7d\n```") = .ok (.obj [(("a"), .num ("1"))])) ∧
    (parseApiResponse ("Here is the article: \x7b\"a\": 1\x7d") =
      .ok (.obj [(("a"), .num ("1"))])) := by
  refine ⟨?_, ?_, ?_, ?_, objectMatch_some_decomp, rfl, rfl, rfl⟩
  · intro s v h
    unfold parseApiResponse
    rw [h]
  · intro s m v h1 h2 h3
    unfold parseApiResponse
    simp only [h1, h2, h3]
  · intro s m v h1 h2 h3 h4
    unfold parseApiResponse
    simp only [h1, h2, h3, h4]
  · intro s h1 h2 h3
    have hom : objectMatch s = none := by
      cases hcase : objectMatch s with
      | none => rfl
      | some m => exact absurd (objectMatch_some_decomp s m hcase) h3
    unfold parseApiResponse
    simp only [h1, h2, hom]

/-- C3 witness: the amended theorem's first conjunct applied to a concrete
whole-text JSON response. -/
theorem C3_witness : parseApiResponse ("\x7b\"ok\": true\x7d") =
    .ok (.obj [(("ok"), .bool true)]) :=
  C3_amended_thm.1 ("\x7b\"ok\": true\x7d") (.obj [(("ok"), .bool true)]) rfl

/-- C7 witness: the slug alphabet theorem applied to a concrete title. -/
theorem C7_witness :
    ((generateSlug ("Hello, World!")).toList.all
      (fun c => c.isLower || c.isDigit || c == '-') = true) ∧
    (generateSlug ("Hello, World!")).toList.head? ≠ some '-' :=
  ⟨(C7_thm ("Hello, World!")).1, (C7_thm ("Hello, World!")).2.1⟩

end SimplyNerdy
